import Mathlib

/-!
Shallow embedding of the `ai-competitor-tracker` scrapers
(`scraper.py`, `anthropic_scraper.py`, `openai_scraper.py`).

HTML documents are modelled as a tree of element and text nodes; the
network is modelled as an oracle `String → Option Node` (`none` is a
failed fetch: timeout, connection error, or non-2xx status, all of which
the Python code collapses into returning `None` / `[]`).  Python strings
are Lean `String`s, and the Python string operations used by the code
(`startswith`, `in`, `strip`, `lower`, slicing) are re-implemented on
`String.data` so that they can be reasoned about directly.
-/

/-- Python `str.strip()` whitespace set (ASCII part used here). -/
def isPySpace (c : Char) : Bool :=
  c = ' ' || c = '\t' || c = '\n' || c = '\r' || c = '\x0b' || c = '\x0c'

/-- Strip leading and trailing whitespace from a list of characters. -/
def stripChars (l : List Char) : List Char :=
  ((l.dropWhile isPySpace).reverse.dropWhile isPySpace).reverse

/-- Python `s.strip()`. -/
def pyStrip (s : String) : String := ⟨stripChars s.data⟩

/-- Python `s.startswith(p)`. -/
def pyStartswith (s p : String) : Bool := p.data.isPrefixOf s.data

/-- Substring search: is `sub` a contiguous run of `l`? -/
def infixCheck (sub : List Char) : List Char → Bool
  | [] => sub.isEmpty
  | c :: cs => sub.isPrefixOf (c :: cs) || infixCheck sub cs

/-- Python `sub in s` (substring containment). -/
def pyContains (s sub : String) : Bool := infixCheck sub.data s.data

/-- Python `s.lower()` (ASCII lowering, as used on class names). -/
def pyLower (s : String) : String := ⟨s.data.map Char.toLower⟩

/-- Python slicing `s[n:]` (drop the first `n` characters). -/
def pyDropChars (s : String) (n : Nat) : String := ⟨s.data.drop n⟩

/-- Python slicing `s[:n]` (take the first `n` characters). -/
def pyTakeChars (s : String) (n : Nat) : String := ⟨s.data.take n⟩

/-- Sequential concatenation of strings, modelling consecutive
`f.write(...)` calls. -/
def joinStrs : List String → String
  | [] => ""
  | s :: ss => s ++ joinStrs ss

/-- A parsed HTML document: element nodes with a tag name, an attribute
list and children, and text nodes. -/
inductive Node where
  | text (s : String)
  | elem (tag : String) (attrs : List (String × String)) (children : List Node)
deriving Repr

/-- The attribute value `n.get(key)` of an element node, `none` when the
node is a text node or lacks the attribute. -/
def attr? (n : Node) (key : String) : Option String :=
  match n with
  | .text _ => none
  | .elem _ attrs _ => (attrs.find? (fun kv => kv.1 = key)).map (fun kv => kv.2)

/-- Python `tag.get('href', '')`. -/
def attrD (n : Node) (key : String) : String := (attr? n key).getD ""

/-- Tag name of an element node. -/
def tagOf? : Node → Option String
  | .text _ => none
  | .elem t _ _ => some t

mutual
/-- All descendants of a node in document (preorder) order, as
BeautifulSoup's `find`/`find_all`/`select` traverse them. -/
def descendants : Node → List Node
  | .text _ => []
  | .elem _ _ cs => descendantsList cs
/-- Descendants of a forest of sibling nodes, in document order. -/
def descendantsList : List Node → List Node
  | [] => []
  | n :: ns => n :: (descendants n ++ descendantsList ns)
end

mutual
/-- BeautifulSoup `get_text(strip=True)`: every text fragment in the
subtree, stripped, concatenated in document order. -/
def getTextStrip : Node → String
  | .text s => pyStrip s
  | .elem _ _ cs => getTextStripList cs
/-- `get_text(strip=True)` over a forest of sibling nodes. -/
def getTextStripList : List Node → String
  | [] => ""
  | n :: ns => getTextStrip n ++ getTextStripList ns
end

/-- `soup.find_all(...)` filtered by a predicate, in document order. -/
def findAllP (p : Node → Bool) (n : Node) : List Node :=
  (descendants n).filter p

/-- `soup.find(...)`: first descendant satisfying the predicate. -/
def findP (p : Node → Bool) (n : Node) : Option Node :=
  (descendants n).find? p

/-- Whether a node is an element with the given tag. -/
def tagIs (t : String) (n : Node) : Bool := tagOf? n = some t

/-- Whether a node is an element whose tag is one of the given tags,
modelling `find(['h1', 'h2', ...])`. -/
def tagIsOneOf (ts : List String) (n : Node) : Bool :=
  match tagOf? n with
  | some t => ts.contains t
  | none => false

/-- `soup.select(sel)` for the tag-name selectors used by the
configuration (e.g. `"article"`): all descendants with that tag. -/
def selectTag (sel : String) (n : Node) : List Node :=
  findAllP (tagIs sel) n

/-- One scraped item: a Python dict whose keys may each be absent.
`some ""` models a key present with an empty-string value. -/
structure PostData where
  title : Option String := none
  link : Option String := none
  category : Option String := none
  date : Option String := none
deriving Repr, DecidableEq

/-! ## `scraper.py`: the configuration-driven multi-competitor pipeline -/

/-- One target record of the configuration (`competitor` dict); the
`selector` key may be absent (`competitor.get('selector', 'article')`). -/
structure Competitor where
  name : String
  url : String
  selector : Option String := none
deriving Repr, DecidableEq

/-- The configuration: `competitors` list and `user_agent` string. -/
structure Config where
  competitors : List Competitor := []
  user_agent : String := ""
deriving Repr, DecidableEq

/-- `CompetitorScraper.get_default_config`. -/
def get_default_config : Config :=
  { competitors :=
      [{ name := "OpenAI"
         url := "https://openai.com/blog"
         selector := some "article" }]
    user_agent := "Mozilla/5.0 (Windows NT 10.0; Win64; x64) AppleWebKit/537.36" }

/-- `CompetitorScraper.load_config`: the file system is abstracted to an
`Option Config` (`none` models `FileNotFoundError`, `some cfg` the parsed
contents of a present file). -/
def load_config (file : Option Config) : Config :=
  match file with
  | some cfg => cfg
  | none => get_default_config

/-- The body of the `for article in articles[:5]` loop of
`parse_content`: title from the first `h1`–`h4` descendant with the
fallback placeholder `"No title found"`, link from the first `a`
descendant via `link.get('href', '')`, stored without normalization. -/
def parseItem (article : Node) : PostData :=
  let title_text :=
    match findP (tagIsOneOf ["h1", "h2", "h3", "h4"]) article with
    | some t => getTextStrip t
    | none => "No title found"
  let link_url :=
    match findP (tagIs "a") article with
    | some l => attrD l "href"
    | none => ""
  { title := some title_text, link := some link_url }

/-- The extraction loop of `parse_content` over the candidate nodes the
selector matched: truncate to 5, build an item from each (no item is
ever dropped). -/
def parseItems (articles : List Node) : List PostData :=
  (articles.take 5).map parseItem

/-- `CompetitorScraper.parse_content`: `none` models a failed fetch
(`if not html: return []`); otherwise select candidates with the
(tag-name) selector and run the extraction loop. -/
def parse_content (html : Option Node) (selector : String) : List PostData :=
  match html with
  | none => []
  | some soup => parseItems (selectTag selector soup)

/-- The per-target outcome dict built by `scrape_competitor`
(the wall-clock `timestamp` field is abstracted away). -/
structure ScrapeResult where
  name : String
  url : String
  data : List PostData
deriving Repr, DecidableEq

/-- `CompetitorScraper.scrape_competitor`, with the network abstracted
to an oracle `fetch : String → Option Node` standing for
`fetch_page` composed with HTML parsing (`none` = `FetchFailed`). -/
def scrape_competitor (fetch : String → Option Node) (c : Competitor) : ScrapeResult :=
  { name := c.name
    url := c.url
    data := parse_content (fetch c.url) (c.selector.getD "article") }

/-- `CompetitorScraper.scrape_all`: every configured competitor is
attempted once, in configured order (the fixed `time.sleep(2)` delay has
no observable effect on the result and is not modelled). -/
def scrape_all (fetch : String → Option Node) (competitors : List Competitor) :
    List ScrapeResult :=
  match competitors with
  | [] => []
  | c :: rest => scrape_competitor fetch c :: scrape_all fetch rest

/-- The lines `generate_report` writes for one item. -/
def itemLines (p : PostData) : String :=
  "- **" ++ p.title.getD "" ++ "**\n" ++
    (match p.link with
     | some l => if l ≠ "" then "  - Link: " ++ l ++ "\n" else ""
     | none => "")

/-- The report section `generate_report` writes for one competitor. -/
def reportSection (r : ScrapeResult) : String :=
  "## " ++ r.name ++ "\n" ++ "Source: " ++ r.url ++ "\n\n" ++
    (if r.data ≠ [] then
      "### Recent Updates:\n" ++ joinStrs (r.data.map itemLines)
     else "No recent updates found.\n") ++
    "\n---\n\n"

/-- `CompetitorScraper.generate_report` as the text written to the
report file; `now` abstracts the generation timestamp. -/
def generate_report (now : String) (results : List ScrapeResult) : String :=
  "# AI Competitor Intelligence Report\n" ++
    "**Generated:** " ++ now ++ "\n\n" ++
    joinStrs (results.map reportSection)

/-! ## `anthropic_scraper.py`: `fetch_anthropic_news` -/

/-- The fixed category label list of `fetch_anthropic_news`. -/
def anthropicCategories : List String :=
  ["Announcements", "Policy", "Research", "Product", "Societal Impacts"]

/-- The category-stripping step (`for category in categories: ...` with
`break`): the first label that is a prefix of the text is split off and
the remainder of the text is whitespace-stripped. -/
def stripCategory (link_text : String) : Option String × String :=
  match anthropicCategories.find? (fun c => pyStartswith link_text c) with
  | some c => (some c, pyStrip (pyDropChars link_text c.data.length))
  | none => (none, link_text)

/-- Link normalization of `fetch_anthropic_news`:
`if href.startswith('/'): href = f"https://www.anthropic.com{href}"`. -/
def normalizeAnthropic (href : String) : String :=
  if pyStartswith href "/" then "https://www.anthropic.com" ++ href else href

/-- The `href=lambda x: x and ('/news/' in x or '/research/' in x)`
filter of `main_content.find_all('a', href=...)`. -/
def anthropicHrefMatch (n : Node) : Bool :=
  tagIs "a" n &&
    (match attr? n "href" with
     | some h => h ≠ "" && (pyContains h "/news/" || pyContains h "/research/")
     | none => false)

/-- `main_content.find_all('a', href=lambda ...)` in document order. -/
def anthropicNewsLinks (main_content : Node) : List Node :=
  findAllP anthropicHrefMatch main_content

/-- The deduplication loop of `fetch_anthropic_news`: keep a link when
its href is non-empty, unseen, and starts with `/news/` or
`/research/`; `seen` models the `seen_urls` set. -/
def dedupLinks : List Node → List String → List Node
  | [], _ => []
  | l :: rest, seen =>
    let href := attrD l "href"
    if href ≠ "" && !seen.contains href &&
        (pyStartswith href "/news/" || pyStartswith href "/research/") then
      l :: dedupLinks rest (href :: seen)
    else
      dedupLinks rest seen

/-- The body of the `for i, link in enumerate(unique_links[:15], 1)`
loop: build `post_data` and keep it only when both a title and a link
were set. -/
def anthropicPost (link : Node) : Option PostData :=
  let href := attrD link "href"
  let optLink : Option String :=
    if href ≠ "" then some (normalizeAnthropic href) else none
  let stripped := stripCategory (getTextStrip link)
  let optTitle : Option String := if stripped.2 ≠ "" then some stripped.2 else none
  match optTitle, optLink with
  | some t, some l => some { title := some t, link := some l, category := stripped.1 }
  | _, _ => none

/-- `fetch_anthropic_news`: `none` models a failed fetch (the
`except requests.RequestException: return []` path); otherwise the main
content area (falling back to the whole page), the news/research links,
deduplication by href, truncation to 15 and the per-link loop. -/
def fetch_anthropic_news (fetched : Option Node) : List PostData :=
  match fetched with
  | none => []
  | some soup =>
    let main_content := (findP (tagIs "main") soup).getD soup
    let unique_links := dedupLinks (anthropicNewsLinks main_content) []
    (unique_links.take 15).filterMap anthropicPost

/-! ## `openai_scraper.py`: `fetch_openai_blog` -/

/-- Link normalization of `fetch_openai_blog`:
`if href.startswith('/'): href = f"https://openai.com{href}"`. -/
def normalizeOpenai (href : String) : String :=
  if pyStartswith href "/" then "https://openai.com" ++ href else href

/-- The class-name predicate of
`find_all(['article', 'div'], class_=lambda x: x and any(k in x.lower() for k in ...))`. -/
def openaiClassMatch (n : Node) : Bool :=
  tagIsOneOf ["article", "div"] n &&
    (match attr? n "class" with
     | some x => x ≠ "" &&
         (["post", "article", "story", "card"].any (fun k => pyContains (pyLower x) k))
     | none => false)

/-- The fallback `soup.select('a[href*="/blog/"], a[href*="/news/"]')[:10]`. -/
def openaiFallbackAnchors (soup : Node) : List Node :=
  (findAllP
    (fun n => tagIs "a" n &&
      (match attr? n "href" with
       | some h => pyContains h "/blog/" || pyContains h "/news/"
       | none => false)) soup).take 10

/-- The candidate node list of `fetch_openai_blog`: the class-matched
articles/divs, or the anchor fallback when none matched. -/
def openaiArticles (soup : Node) : List Node :=
  let articles := findAllP openaiClassMatch soup
  if articles.isEmpty then openaiFallbackAnchors soup else articles

/-- The body of the `for i, article in enumerate(articles[:10], 1)`
loop: title from the first heading descendant, falling back to the first
100 characters of the node's own text plus `"..."`; link from the first
`a` descendant when it has an `href`; date from the first `time`/`span`
descendant with a class containing `date`; keep the item only when the
title is truthy (non-empty). -/
def openaiPost (article : Node) : Option PostData :=
  let title :=
    match findP (tagIsOneOf ["h1", "h2", "h3", "h4", "h5", "h6"]) article with
    | some t => getTextStrip t
    | none => pyTakeChars (getTextStrip article) 100 ++ "..."
  let link? : Option String :=
    match findP (tagIs "a") article with
    | some a =>
      match attr? a "href" with
      | some href => some (normalizeOpenai href)
      | none => none
    | none => none
  let date? : Option String :=
    match findP
        (fun n => tagIsOneOf ["time", "span"] n &&
          (match attr? n "class" with
           | some x => x ≠ "" && pyContains (pyLower x) "date"
           | none => false)) article with
    | some d => some (getTextStrip d)
    | none => none
  if title ≠ "" then
    some { title := some title, link := link?, date := date? }
  else
    none

/-- `fetch_openai_blog`: `none` models a failed fetch; otherwise the
candidate articles, truncated to 10, run through the per-article loop. -/
def fetch_openai_blog (fetched : Option Node) : List PostData :=
  match fetched with
  | none => []
  | some soup => ((openaiArticles soup).take 10).filterMap openaiPost

/-! ## Helper lemmas about the string model -/

theorem pyStartswith_iff (s p : String) : pyStartswith s p = true ↔ p.data <+: s.data := by
  unfold pyStartswith
  exact List.isPrefixOf_iff_prefix

theorem pyStartswith_append_both (b p s : String) (h : pyStartswith s p = true) :
    pyStartswith (b ++ s) (b ++ p) = true := by
  rw [pyStartswith_iff] at h ⊢
  rw [String.data_append, String.data_append]
  exact (List.prefix_append_right_inj b.data).mpr h

theorem pyStartswith_of_pyStartswith (s p q : String)
    (hpq : q.data <+: p.data) (h : pyStartswith s p = true) :
    pyStartswith s q = true := by
  rw [pyStartswith_iff] at h ⊢
  exact hpq.trans h

theorem append_left_cancel_str (b s t : String) (h : b ++ s = b ++ t) : s = t := by
  apply String.ext
  have hd : b.data ++ s.data = b.data ++ t.data := by
    rw [← String.data_append, ← String.data_append, h]
  exact List.append_cancel_left hd

theorem pyStartswith_append_slash_anthropic (s : String) :
    pyStartswith ("https://www.anthropic.com" ++ s) "/" = false := by
  rw [Bool.eq_false_iff]
  intro h
  rw [pyStartswith_iff, String.data_append] at h
  have h1 : ("https://www.anthropic.com").data = 'h' :: "ttps://www.anthropic.com".data := rfl
  rw [h1, List.cons_append] at h
  rcases h with ⟨t, ht⟩
  have hc := congrArg (fun l => l.head?) ht
  simp at hc

theorem pyStartswith_append_slash_openai (s : String) :
    pyStartswith ("https://openai.com" ++ s) "/" = false := by
  rw [Bool.eq_false_iff]
  intro h
  rw [pyStartswith_iff, String.data_append] at h
  have h1 : ("https://openai.com").data = 'h' :: "ttps://openai.com".data := rfl
  rw [h1, List.cons_append] at h
  rcases h with ⟨t, ht⟩
  have hc := congrArg (fun l => l.head?) ht
  simp at hc

theorem infixCheck_iff (sub l : List Char) : infixCheck sub l = true ↔ sub <:+: l := by
  induction l with
  | nil => simp [infixCheck]
  | cons c cs ih =>
    simp [infixCheck, List.isPrefixOf_iff_prefix, ih, List.infix_cons_iff]

theorem pyContains_of_sub (s sub : String) (h : sub.data <:+: s.data) :
    pyContains s sub = true := by
  unfold pyContains
  exact (infixCheck_iff sub.data s.data).mpr h

theorem joinStrs_append (l1 l2 : List String) :
    joinStrs (l1 ++ l2) = joinStrs l1 ++ joinStrs l2 := by
  induction l1 with
  | nil => simp [joinStrs]
  | cons s ss ih =>
    apply String.ext
    simp [joinStrs, String.data_append, ih, List.append_assoc]

/-! ## Helper lemmas about `fetch_anthropic_news` -/

/-- The keep condition of the deduplication loop. -/
def keptHref (h : String) : Prop :=
  h ≠ "" ∧ (pyStartswith h "/news/" = true ∨ pyStartswith h "/research/" = true)

theorem dedupLinks_facts (ls : List Node) (seen : List String) :
    (∀ l ∈ dedupLinks ls seen,
        keptHref (attrD l "href") ∧ attrD l "href" ∉ seen) ∧
    ((dedupLinks ls seen).map (fun l => attrD l "href")).Nodup := by
  induction ls generalizing seen with
  | nil => simp [dedupLinks]
  | cons l rest ih =>
    by_cases hc : (attrD l "href" ≠ "" && !seen.contains (attrD l "href") &&
        (pyStartswith (attrD l "href") "/news/" ||
          pyStartswith (attrD l "href") "/research/")) = true
    · rw [show dedupLinks (l :: rest) seen
          = l :: dedupLinks rest (attrD l "href" :: seen) by
        simp only [dedupLinks]
        rw [if_pos hc]]
      simp only [Bool.and_eq_true, Bool.or_eq_true, Bool.not_eq_true',
        decide_eq_true_eq, ne_eq] at hc
      obtain ⟨⟨hne, hseen⟩, hsw⟩ := hc
      have hmem := (ih (attrD l "href" :: seen)).1
      have hnd := (ih (attrD l "href" :: seen)).2
      refine ⟨?_, ?_⟩
      · intro x hx
        rcases List.mem_cons.mp hx with hx | hx
        · subst hx
          refine ⟨⟨?_, hsw⟩, ?_⟩
          · intro h0
            exact hne (by simp [h0])
          · intro hmem0
            have h1 : seen.contains (attrD x "href") = true :=
              List.elem_eq_true_of_mem hmem0
            rw [h1] at hseen
            cases hseen
        · have := hmem x hx
          exact ⟨this.1, fun h0 => this.2 (List.mem_cons_of_mem _ h0)⟩
      · rw [List.map_cons, List.nodup_cons]
        refine ⟨?_, hnd⟩
        intro hmem0
        rcases List.mem_map.mp hmem0 with ⟨x, hx, hxeq⟩
        exact (hmem x hx).2 (hxeq ▸ List.mem_cons_self _ _)
    · rw [show dedupLinks (l :: rest) seen = dedupLinks rest seen by
        simp only [dedupLinks]
        rw [if_neg hc]]
      exact ih seen

/-- What a kept `post_data` of the anthropic loop looks like in terms of
the link node it came from. -/
theorem anthropicPost_facts (l : Node) (p : PostData)
    (h : anthropicPost l = some p) :
    (∃ t, p.title = some t ∧ t ≠ "") ∧
    attrD l "href" ≠ "" ∧
    p.link = some (normalizeAnthropic (attrD l "href")) := by
  simp only [anthropicPost] at h
  split at h
  next t lnk heqT heqL =>
    rw [Option.some_inj] at h
    subst h
    have ht2 : (stripCategory (getTextStrip l)).2 ≠ "" := by
      intro h0
      rw [h0] at heqT
      simp at heqT
    have hh : attrD l "href" ≠ "" := by
      intro h0
      rw [h0] at heqL
      simp at heqL
    rw [if_pos ht2, Option.some_inj] at heqT
    rw [if_pos hh, Option.some_inj] at heqL
    refine ⟨⟨t, rfl, ?_⟩, hh, ?_⟩
    · rw [← heqT]
      exact ht2
    · rw [← heqL]
  next hne => simp at h

/-- A startswith fact used to turn `/news/`- and `/research/`-prefixes
into full-URL prefixes. -/
theorem keptHref_slash (h : String) (hk : keptHref h) : pyStartswith h "/" = true := by
  rcases hk.2 with hs | hs
  · exact pyStartswith_of_pyStartswith h "/news/" "/" (by decide) hs
  · exact pyStartswith_of_pyStartswith h "/research/" "/" (by decide) hs

/-- Links of kept posts over a list of nodes with pairwise-distinct,
kept hrefs are pairwise distinct. -/
theorem anthropic_links_nodup (ls : List Node)
    (hgood : ∀ l ∈ ls, keptHref (attrD l "href"))
    (hnd : (ls.map (fun l => attrD l "href")).Nodup) :
    ((ls.filterMap anthropicPost).map PostData.link).Nodup := by
  induction ls with
  | nil => simp
  | cons l rest ih =>
    rw [List.map_cons, List.nodup_cons] at hnd
    have hrest : ((rest.filterMap anthropicPost).map PostData.link).Nodup :=
      ih (fun x hx => hgood x (List.mem_cons_of_mem _ hx)) hnd.2
    cases hpost : anthropicPost l with
    | none => simpa [List.filterMap_cons, hpost] using hrest
    | some p =>
      rw [List.filterMap_cons, hpost, List.map_cons, List.nodup_cons]
      refine ⟨?_, hrest⟩
      intro hmem
      rcases List.mem_map.mp hmem with ⟨p', hp', heq⟩
      rcases List.mem_filterMap.mp hp' with ⟨l', hl', hpost'⟩
      have f1 := anthropicPost_facts l p hpost
      have f2 := anthropicPost_facts l' p' hpost'
      have hsl : pyStartswith (attrD l "href") "/" = true :=
        keptHref_slash _ (hgood l (List.mem_cons_self _ _))
      have hsl' : pyStartswith (attrD l' "href") "/" = true :=
        keptHref_slash _ (hgood l' (List.mem_cons_of_mem _ hl'))
      have hl1 : p.link = some ("https://www.anthropic.com" ++ attrD l "href") := by
        rw [f1.2.2, normalizeAnthropic, if_pos hsl]
      have hl2 : p'.link = some ("https://www.anthropic.com" ++ attrD l' "href") := by
        rw [f2.2.2, normalizeAnthropic, if_pos hsl']
      rw [hl1] at heq
      rw [hl2] at heq
      have : attrD l' "href" = attrD l "href" :=
        append_left_cancel_str _ _ _ (Option.some.injEq _ _ ▸ heq)
      exact hnd.1 (this ▸ List.mem_map.mpr ⟨l', hl', rfl⟩)

/-- Every item of a successful `fetch_anthropic_news` run has a
non-empty title and an absolute news/research link. -/
theorem anthropic_mem_facts (soup : Node) (p : PostData)
    (hp : p ∈ fetch_anthropic_news (some soup)) :
    (∃ t, p.title = some t ∧ t ≠ "") ∧
    (∃ l, p.link = some l ∧
      (pyStartswith l "https://www.anthropic.com/news/" = true ∨
        pyStartswith l "https://www.anthropic.com/research/" = true)) := by
  unfold fetch_anthropic_news at hp
  rcases List.mem_filterMap.mp hp with ⟨l, hl, hpost⟩
  have hl' : l ∈ dedupLinks
      (anthropicNewsLinks ((findP (tagIs "main") soup).getD soup)) [] :=
    List.mem_of_mem_take hl
  have hkept := ((dedupLinks_facts _ []).1 l hl').1
  have hf := anthropicPost_facts l p hpost
  refine ⟨hf.1, "https://www.anthropic.com" ++ attrD l "href", ?_, ?_⟩
  · rw [hf.2.2, normalizeAnthropic, if_pos (keptHref_slash _ hkept)]
  · rcases hkept.2 with hs | hs
    · exact Or.inl (pyStartswith_append_both "https://www.anthropic.com" _ _ hs)
    · exact Or.inr (pyStartswith_append_both "https://www.anthropic.com" _ _ hs)

/-- A kept item of the openai loop has a non-empty title. -/
theorem openaiPost_title (a : Node) (p : PostData) (h : openaiPost a = some p) :
    ∃ t, p.title = some t ∧ t ≠ "" := by
  simp only [openaiPost] at h
  split at h
  next hcond =>
    rw [Option.some_inj] at h
    subst h
    exact ⟨_, rfl, hcond⟩
  next => simp at h

/-- An infix of the right factor is an infix of an append. -/
theorem infix_append_right_ch (l l₁ l₂ : List Char) (h : l <:+: l₂) :
    l <:+: l₁ ++ l₂ :=
  h.trans (List.suffix_append l₁ l₂).isInfix

/-- An infix of the left factor is an infix of an append. -/
theorem infix_append_left_ch (l l₁ l₂ : List Char) (h : l <:+: l₁) :
    l <:+: l₁ ++ l₂ :=
  h.trans (List.prefix_append l₁ l₂).isInfix

/-- A target with no extracted items gets the "No recent updates found"
text in its report section. -/
theorem reportSection_empty_has_text (r : ScrapeResult) (hr : r.data = []) :
    ("No recent updates found.").data <:+: (reportSection r).data := by
  rw [reportSection, hr]
  simp only [ne_eq, not_true_eq_false, if_false]
  refine ⟨("## " ++ r.name ++ "\n" ++ "Source: " ++ r.url ++ "\n\n").data,
    '\n' :: ("\n---\n\n").data, ?_⟩
  have hx : ("No recent updates found.\n").data
      = ("No recent updates found.").data ++ ['\n'] := rfl
  simp [String.data_append, hx, List.append_assoc]

/-- `scrape_all` distributes over an append of target lists: the run
continues past any one target. -/
theorem scrape_all_append (fetch : String → Option Node)
    (l1 l2 : List Competitor) :
    scrape_all fetch (l1 ++ l2) = scrape_all fetch l1 ++ scrape_all fetch l2 := by
  induction l1 with
  | nil => simp [scrape_all]
  | cons c rest ih => simp [scrape_all, ih]

/-- If any result in the list has an empty item list, the full report
text contains "No recent updates found.". -/
theorem generate_report_contains (now : String) (results : List ScrapeResult)
    (r : ScrapeResult) (hr : r ∈ results) (hempty : r.data = []) :
    pyContains (generate_report now results) "No recent updates found." = true := by
  rcases List.append_of_mem hr with ⟨pre, post, rfl⟩
  apply pyContains_of_sub
  rw [generate_report, List.map_append, List.map_cons, joinStrs_append]
  have hjoin : joinStrs (reportSection r :: List.map reportSection post)
      = reportSection r ++ joinStrs (List.map reportSection post) := rfl
  rw [hjoin]
  simp only [String.data_append, List.append_assoc]
  apply infix_append_right_ch
  apply infix_append_right_ch
  apply infix_append_right_ch
  apply infix_append_right_ch
  apply infix_append_right_ch
  apply infix_append_left_ch
  exact reportSection_empty_has_text r hempty

/-- The links of a successful `fetch_anthropic_news` run are pairwise
distinct. -/
theorem anthropic_links_nodup_all (soup : Node) :
    ((fetch_anthropic_news (some soup)).map PostData.link).Nodup := by
  unfold fetch_anthropic_news
  set dl := dedupLinks (anthropicNewsLinks ((findP (tagIs "main") soup).getD soup)) [] with hdl
  apply anthropic_links_nodup
  · intro l hl
    exact ((dedupLinks_facts _ []).1 l (List.mem_of_mem_take hl)).1
  · rw [List.map_take]
    exact List.Sublist.nodup (List.take_sublist _ _) (dedupLinks_facts _ []).2

/-- Length bound for the deduplication loop. -/
theorem dedupLinks_length (ls : List Node) (seen : List String) :
    (dedupLinks ls seen).length ≤ ls.length := by
  induction ls generalizing seen with
  | nil => simp [dedupLinks]
  | cons l rest ih =>
    simp only [dedupLinks]
    split
    · simpa using ih (attrD l "href" :: seen)
    · exact Nat.le_succ_of_le (ih seen)

/-! ## The claims -/

/-- Document exhibiting an `article` candidate whose only heading is
empty: `parse_content` emits an item whose title is the empty string. -/
def c1doc : Node :=
  .elem "body" [] [.elem "article" [] [.elem "h2" [] []]]

/-- C1 counterexample: `parse_content` emits an item whose `title` is
present but EMPTY (the candidate's heading has no text), so not every
extracted item of every extraction function has a non-empty title, and
the titleless candidate was not dropped. -/
theorem C1_counterexample :
    (parse_content (some c1doc) "article").map PostData.title = [some ""] := by
  decide

/-- C1 (amended): every item emitted by `fetch_anthropic_news` and
`fetch_openai_blog` carries a present, non-empty title; `parse_content`
however never drops a candidate (it emits exactly `min 5 n` items for
`n` candidates, each with a present — possibly empty — title), and a
candidate with no heading gets the placeholder title `"No title found"`
instead of being dropped. -/
theorem C1_theorem :
    (∀ soup : Node, ∀ p ∈ fetch_anthropic_news (some soup),
      ∃ t, p.title = some t ∧ t ≠ "") ∧
    (∀ soup : Node, ∀ p ∈ fetch_openai_blog (some soup),
      ∃ t, p.title = some t ∧ t ≠ "") ∧
    (∀ articles : List Node, (parseItems articles).length = min 5 articles.length ∧
      ∀ p ∈ parseItems articles, (p.title).isSome = true) ∧
    (∀ article : Node, findP (tagIsOneOf ["h1", "h2", "h3", "h4"]) article = none →
      (parseItem article).title = some "No title found") := by
  refine ⟨?_, ?_, ?_, ?_⟩
  · intro soup p hp
    exact (anthropic_mem_facts soup p hp).1
  · intro soup p hp
    unfold fetch_openai_blog at hp
    rcases List.mem_filterMap.mp hp with ⟨a, _, hpost⟩
    exact openaiPost_title a p hpost
  · intro articles
    constructor
    · simp [parseItems, List.length_take]
    · intro p hp
      rcases List.mem_map.mp hp with ⟨a, _, rfl⟩
      rfl
  · intro article h
    simp [parseItem, h]

/-- Anthropic-shaped page used to instantiate `C1_theorem`. -/
def w1docA : Node :=
  .elem "html" [] [.elem "main" []
    [.elem "a" [("href", "/news/hello")] [.text "Hello"]]]

/-- OpenAI-shaped page used to instantiate `C1_theorem`. -/
def w1docB : Node :=
  .elem "body" [] [.elem "div" [("class", "post")] [.elem "h2" [] [.text "Hi"]]]

/-- C1 witness: `C1_theorem` applied at concrete pages and items. -/
theorem C1_witness :
    (∃ t, ({ title := some "Hello",
             link := some "https://www.anthropic.com/news/hello",
             category := none, date := none } : PostData).title = some t ∧ t ≠ "") ∧
    (∃ t, ({ title := some "Hi", link := none,
             category := none, date := none } : PostData).title = some t ∧ t ≠ "") ∧
    (({ title := some "No title found", link := some "",
        category := none, date := none } : PostData).title).isSome = true ∧
    (parseItem (.elem "article" [] [])).title = some "No title found" :=
  ⟨C1_theorem.1 w1docA _ (by decide),
   C1_theorem.2.1 w1docB _ (by decide),
   (C1_theorem.2.2.1 [.elem "article" [] []]).2 _ (by decide),
   C1_theorem.2.2.2 (.elem "article" [] []) rfl⟩

/-- Anthropic news page whose link text carries a category label
followed by a colon. -/
def c2doc : Node :=
  .elem "html" [] [.elem "main" []
    [.elem "a" [("href", "/news/stance")] [.text "Policy: Our New Stance"]]]

/-- C2 counterexample: on the link text `"Policy: Our New Stance"` the
category-stripping step does NOT produce the title `"Our New Stance"` —
only the label and whitespace are removed, the colon survives. -/
theorem C2_counterexample :
    (stripCategory "Policy: Our New Stance").2 ≠ "Our New Stance" := by
  decide

/-- C2 (amended): for the link text `"Policy: Our New Stance"` the
category-stripping step of `fetch_anthropic_news` yields
`category = "Policy"` and `title = ": Our New Stance"` (the label and
surrounding whitespace are removed; punctuation such as the colon is
kept), end to end on a page carrying that link text. -/
theorem C2_theorem :
    stripCategory "Policy: Our New Stance" = (some "Policy", ": Our New Stance") ∧
    fetch_anthropic_news (some c2doc) =
      [{ title := some ": Our New Stance",
         link := some "https://www.anthropic.com/news/stance",
         category := some "Policy", date := none }] := by
  constructor
  · decide
  · decide

/-- Page for `parse_content` whose candidate's anchor is root-relative. -/
def c3doc : Node :=
  .elem "body" [] [.elem "article" []
    [.elem "h2" [] [.text "T"], .elem "a" [("href", "/news/x")] [.text "T"]]]

/-- C3 counterexample: `parse_content` stores a root-relative href
unchanged — the emitted link still starts with `/`, so not every
extraction function rewrites root-relative hrefs to absolute URLs. -/
theorem C3_counterexample :
    (parse_content (some c3doc) "article").map PostData.link = [some "/news/x"] ∧
    pyStartswith "/news/x" "/" = true := by
  decide

/-- C3 (amended): `fetch_anthropic_news` and `fetch_openai_blog` prefix
their target's domain to a root-relative href, and every link emitted by
`fetch_anthropic_news` is an absolute URL on the target's domain;
`parse_content`, by contrast, stores the anchor's href unchanged (so its
output links may stay relative, and `fetch_openai_blog` leaves
non-root-relative hrefs as they are too). -/
theorem C3_theorem :
    (∀ href, pyStartswith href "/" = true →
      normalizeAnthropic href = "https://www.anthropic.com" ++ href ∧
      normalizeOpenai href = "https://openai.com" ++ href) ∧
    (∀ soup : Node, ∀ p ∈ fetch_anthropic_news (some soup),
      ∃ l, p.link = some l ∧ pyStartswith l "https://www.anthropic.com" = true) ∧
    (∀ article a : Node, findP (tagIs "a") article = some a →
      (parseItem article).link = some (attrD a "href")) := by
  refine ⟨?_, ?_, ?_⟩
  · intro href h
    constructor
    · rw [normalizeAnthropic, if_pos h]
    · rw [normalizeOpenai, if_pos h]
  · intro soup p hp
    rcases (anthropic_mem_facts soup p hp).2 with ⟨l, hl, hsw⟩
    refine ⟨l, hl, ?_⟩
    rcases hsw with hsw | hsw
    · exact pyStartswith_of_pyStartswith l "https://www.anthropic.com/news/"
        "https://www.anthropic.com" (by decide) hsw
    · exact pyStartswith_of_pyStartswith l "https://www.anthropic.com/research/"
        "https://www.anthropic.com" (by decide) hsw
  · intro article a h
    simp [parseItem, h]

/-- Anthropic-shaped page used to instantiate `C3_theorem`. -/
def w3doc : Node :=
  .elem "html" [] [.elem "main" []
    [.elem "a" [("href", "/research/r")] [.text "R"]]]

/-- C3 witness: `C3_theorem` applied at concrete hrefs, a concrete page
and a concrete candidate node. -/
theorem C3_witness :
    (normalizeAnthropic "/news/x" = "https://www.anthropic.com" ++ "/news/x" ∧
     normalizeOpenai "/news/x" = "https://openai.com" ++ "/news/x") ∧
    (∃ l, ({ title := some "R",
             link := some "https://www.anthropic.com/research/r",
             category := none, date := none } : PostData).link = some l ∧
      pyStartswith l "https://www.anthropic.com" = true) ∧
    (parseItem (.elem "article" [] [.elem "a" [("href", "/news/x")] []])).link
      = some "/news/x" :=
  ⟨C3_theorem.1 "/news/x" (by decide),
   C3_theorem.2.1 w3doc _ (by decide),
   C3_theorem.2.2 (.elem "article" [] [.elem "a" [("href", "/news/x")] []])
     (.elem "a" [("href", "/news/x")] []) rfl⟩

/-- C4 counterexample: category stripping is NOT idempotent for every
title — on `"PolicyPolicy"` the first pass leaves `"Policy"`, and a
second pass strips again. -/
theorem C4_counterexample :
    (stripCategory (stripCategory "PolicyPolicy").2).2
      ≠ (stripCategory "PolicyPolicy").2 := by
  decide

/-- C4 (amended): no label of the fixed category set is a prefix of
another label of the set, and the stripping step leaves a title
unchanged (stripping nothing, assigning no category) whenever the title
starts with no label; hence re-stripping performs no further stripping
exactly when the once-stripped title does not itself begin with a label
— which a stripped title can (e.g. `"PolicyPolicy"`). -/
theorem C4_theorem :
    (∀ c1 ∈ anthropicCategories, ∀ c2 ∈ anthropicCategories,
      c1 ≠ c2 → pyStartswith c2 c1 = false) ∧
    (∀ s : String, (∀ c ∈ anthropicCategories, pyStartswith s c = false) →
      stripCategory s = (none, s)) := by
  constructor
  · decide
  · intro s h
    unfold stripCategory
    rw [List.find?_eq_none.mpr (fun c hc => by rw [h c hc]; simp)]

/-- C4 witness: `C4_theorem` applied at concrete labels and a concrete
already-stripped title. -/
theorem C4_witness :
    pyStartswith "Policy" "Announcements" = false ∧
    stripCategory "Hello" = (none, "Hello") :=
  ⟨C4_theorem.1 "Announcements" (by decide) "Policy" (by decide) (by decide),
   C4_theorem.2 "Hello" (by decide)⟩

/-- C5: link normalization is idempotent — an href not starting with
`/` is returned unchanged, a root-relative href gets the target's base
prefixed exactly once, and re-normalizing a normalized link changes
nothing (for both targets' normalizers). -/
theorem C5_theorem (href : String) :
    (pyStartswith href "/" = false →
      normalizeAnthropic href = href ∧ normalizeOpenai href = href) ∧
    (pyStartswith href "/" = true →
      normalizeAnthropic href = "https://www.anthropic.com" ++ href ∧
      normalizeOpenai href = "https://openai.com" ++ href) ∧
    normalizeAnthropic (normalizeAnthropic href) = normalizeAnthropic href ∧
    normalizeOpenai (normalizeOpenai href) = normalizeOpenai href := by
  refine ⟨?_, ?_, ?_, ?_⟩
  · intro h
    constructor
    · rw [normalizeAnthropic, if_neg (by rw [h]; exact fun hc => nomatch hc)]
    · rw [normalizeOpenai, if_neg (by rw [h]; exact fun hc => nomatch hc)]
  · intro h
    exact ⟨by rw [normalizeAnthropic, if_pos h], by rw [normalizeOpenai, if_pos h]⟩
  · by_cases h : pyStartswith href "/" = true
    · have h1 : normalizeAnthropic href = "https://www.anthropic.com" ++ href := by
        rw [normalizeAnthropic, if_pos h]
      rw [h1, normalizeAnthropic,
        if_neg (by simp [pyStartswith_append_slash_anthropic])]
    · have h1 : normalizeAnthropic href = href := by
        rw [normalizeAnthropic, if_neg h]
      rw [h1]
      exact h1
  · by_cases h : pyStartswith href "/" = true
    · have h1 : normalizeOpenai href = "https://openai.com" ++ href := by
        rw [normalizeOpenai, if_pos h]
      rw [h1, normalizeOpenai,
        if_neg (by simp [pyStartswith_append_slash_openai])]
    · have h1 : normalizeOpenai href = href := by
        rw [normalizeOpenai, if_neg h]
      rw [h1]
      exact h1

/-- C5 witness: `C5_theorem` applied at an absolute and a root-relative
href. -/
theorem C5_witness :
    (normalizeAnthropic "https://x.test/a" = "https://x.test/a" ∧
     normalizeOpenai "https://x.test/a" = "https://x.test/a") ∧
    (normalizeAnthropic "/news/x" = "https://www.anthropic.com" ++ "/news/x" ∧
     normalizeOpenai "/news/x" = "https://openai.com" ++ "/news/x") :=
  ⟨(C5_theorem ("https://x.test/a")).1 (by decide),
   (C5_theorem ("/news/x")).2.1 (by decide)⟩

/-- C6: each extraction function returns at most its configured maximum
(5 / 15 / 10) and at most the number of candidate nodes its selector
matched; `parse_content` in fact returns exactly `min 5 n` items, a
failed or empty fetch yields `[]`, and an empty candidate list yields
`[]` rather than an error (all functions are total). -/
theorem C6_theorem :
    (∀ articles : List Node,
      (parseItems articles).length = min 5 articles.length) ∧
    (∀ soup : Node, ∀ sel : String,
      (parse_content (some soup) sel).length ≤ 5 ∧
      (parse_content (some soup) sel).length ≤ (selectTag sel soup).length) ∧
    (∀ sel : String, parse_content none sel = []) ∧
    (∀ soup : Node,
      (fetch_anthropic_news (some soup)).length ≤ 15 ∧
      (fetch_anthropic_news (some soup)).length ≤
        (anthropicNewsLinks ((findP (tagIs "main") soup).getD soup)).length) ∧
    fetch_anthropic_news none = [] ∧
    (∀ soup : Node,
      (fetch_openai_blog (some soup)).length ≤ 10 ∧
      (fetch_openai_blog (some soup)).length ≤ (openaiArticles soup).length) ∧
    fetch_openai_blog none = [] := by
  refine ⟨?_, ?_, fun sel => rfl, ?_, rfl, ?_, rfl⟩
  · intro articles
    simp [parseItems, List.length_take]
  · intro soup sel
    have hlen : (parse_content (some soup) sel).length
        = min 5 (selectTag sel soup).length := by
      show (parseItems (selectTag sel soup)).length = _
      simp [parseItems, List.length_take]
    rw [hlen]
    exact ⟨Nat.min_le_left 5 _, Nat.min_le_right 5 _⟩
  · intro soup
    have hdef : fetch_anthropic_news (some soup)
        = ((dedupLinks (anthropicNewsLinks
            ((findP (tagIs "main") soup).getD soup)) []).take 15).filterMap
            anthropicPost := rfl
    rw [hdef]
    have h1 := List.length_filterMap_le anthropicPost
      ((dedupLinks (anthropicNewsLinks ((findP (tagIs "main") soup).getD soup)) []).take 15)
    have h2 := List.length_take 15
      (dedupLinks (anthropicNewsLinks ((findP (tagIs "main") soup).getD soup)) [])
    have h3 := dedupLinks_length
      (anthropicNewsLinks ((findP (tagIs "main") soup).getD soup)) []
    exact ⟨by omega, by omega⟩
  · intro soup
    have hdef : fetch_openai_blog (some soup)
        = ((openaiArticles soup).take 10).filterMap openaiPost := rfl
    rw [hdef]
    have h1 := List.length_filterMap_le openaiPost ((openaiArticles soup).take 10)
    have h2 := List.length_take 10 (openaiArticles soup)
    exact ⟨by omega, by omega⟩

/-- C7: when a target's fetch fails (`none` from the fetch oracle, the
single outcome all network errors collapse to) its `ScrapeResult` data
is empty, the run still processes every other target in order, the
report is still produced, and both the failed target's section and the
full report contain the "No recent updates found." text. -/
theorem C7_theorem (fetch : String → Option Node) (c : Competitor)
    (now : String) (pre post : List Competitor) (h : fetch c.url = none) :
    (scrape_competitor fetch c).data = [] ∧
    scrape_all fetch (pre ++ c :: post)
      = scrape_all fetch pre ++ scrape_competitor fetch c :: scrape_all fetch post ∧
    pyContains (reportSection (scrape_competitor fetch c))
      "No recent updates found." = true ∧
    pyContains (generate_report now (scrape_all fetch (pre ++ c :: post)))
      "No recent updates found." = true := by
  have hempty : (scrape_competitor fetch c).data = [] := by
    simp [scrape_competitor, h, parse_content]
  have hsplit : scrape_all fetch (pre ++ c :: post)
      = scrape_all fetch pre ++ scrape_competitor fetch c :: scrape_all fetch post := by
    rw [scrape_all_append]
    rfl
  refine ⟨hempty, hsplit, ?_, ?_⟩
  · exact pyContains_of_sub _ _ (reportSection_empty_has_text _ hempty)
  · apply generate_report_contains now _ (scrape_competitor fetch c) _ hempty
    rw [hsplit]
    exact List.mem_append_right _ (List.mem_cons_self _ _)

/-- C7 witness: `C7_theorem` applied to an always-failing fetch oracle
and a concrete target. -/
theorem C7_witness :
    (scrape_competitor (fun _ => none)
      { name := "Acme", url := "https://acme.test/news", selector := none }).data = [] ∧
    scrape_all (fun _ => none)
        ([] ++ { name := "Acme", url := "https://acme.test/news",
                 selector := none } :: [])
      = scrape_all (fun _ => none) []
        ++ scrape_competitor (fun _ => none)
             { name := "Acme", url := "https://acme.test/news", selector := none }
        :: scrape_all (fun _ => none) [] ∧
    pyContains (reportSection (scrape_competitor (fun _ => none)
        { name := "Acme", url := "https://acme.test/news", selector := none }))
      "No recent updates found." = true ∧
    pyContains (generate_report "2025-01-01 00:00:00"
        (scrape_all (fun _ => none)
          ([] ++ { name := "Acme", url := "https://acme.test/news",
                   selector := none } :: [])))
      "No recent updates found." = true :=
  C7_theorem (fun _ => none)
    { name := "Acme", url := "https://acme.test/news", selector := none }
    "2025-01-01 00:00:00" [] [] rfl

/-- C8: `scrape_all` yields exactly one result per configured target, in
configured order (same names, same count, each target attempted exactly
once), and `generate_report` writes exactly one section per target in
that same order, for every fetch oracle and every target ordering. -/
theorem C8_theorem (fetch : String → Option Node) (now : String)
    (competitors : List Competitor) :
    (scrape_all fetch competitors).length = competitors.length ∧
    (scrape_all fetch competitors).map ScrapeResult.name
      = competitors.map Competitor.name ∧
    generate_report now (scrape_all fetch competitors)
      = "# AI Competitor Intelligence Report\n" ++
          "**Generated:** " ++ now ++ "\n\n" ++
          joinStrs (competitors.map
            (fun c => reportSection (scrape_competitor fetch c))) := by
  have hmap : scrape_all fetch competitors
      = competitors.map (scrape_competitor fetch) := by
    induction competitors with
    | nil => rfl
    | cons c rest ih => simp [scrape_all, ih]
  refine ⟨?_, ?_, ?_⟩
  · rw [hmap, List.length_map]
  · rw [hmap, List.map_map]
    rfl
  · rw [generate_report, hmap, List.map_map]
    rfl

/-- C9: a missing configuration file is recovered by the built-in
default configuration, which has exactly one target (the "OpenAI"
record with a non-empty name, URL and the `"article"` selector) and a
non-empty user-agent string; a present configuration file is returned
parsed and unchanged. -/
theorem C9_theorem :
    load_config none = get_default_config ∧
    get_default_config.competitors
      = [{ name := "OpenAI", url := "https://openai.com/blog",
           selector := some "article" }] ∧
    get_default_config.competitors.length = 1 ∧
    ("OpenAI" : String) ≠ "" ∧
    ("https://openai.com/blog" : String) ≠ "" ∧
    get_default_config.user_agent ≠ "" ∧
    (∀ cfg : Config, load_config (some cfg) = cfg) :=
  ⟨rfl, rfl, rfl, by decide, by decide, by decide, fun cfg => rfl⟩

/-- C10: every successful `fetch_anthropic_news` run yields items with
pairwise-distinct links (deduplicated by href), each carrying both a
non-empty title and a link, every link starting with
`https://www.anthropic.com/news/` or `https://www.anthropic.com/research/`. -/
theorem C10_theorem (soup : Node) :
    ((fetch_anthropic_news (some soup)).map PostData.link).Nodup ∧
    ∀ p ∈ fetch_anthropic_news (some soup),
      (∃ t, p.title = some t ∧ t ≠ "") ∧
      (∃ l, p.link = some l ∧
        (pyStartswith l "https://www.anthropic.com/news/" = true ∨
         pyStartswith l "https://www.anthropic.com/research/" = true)) :=
  ⟨anthropic_links_nodup_all soup, fun p hp => anthropic_mem_facts soup p hp⟩

/-- Anthropic-shaped page used to instantiate `C10_theorem`. -/
def w10doc : Node :=
  .elem "html" [] [.elem "main" []
    [.elem "a" [("href", "/news/a")] [.text "Alpha"],
     .elem "a" [("href", "/news/a")] [.text "Alpha"]]]

/-- C10 witness: `C10_theorem` applied at a concrete page (with a
duplicate anchor) and a concrete item of its output. -/
theorem C10_witness :
    ((fetch_anthropic_news (some w10doc)).map PostData.link).Nodup ∧
    ((∃ t, ({ title := some "Alpha",
              link := some "https://www.anthropic.com/news/a",
              category := none, date := none } : PostData).title = some t ∧ t ≠ "") ∧
     (∃ l, ({ title := some "Alpha",
              link := some "https://www.anthropic.com/news/a",
              category := none, date := none } : PostData).link = some l ∧
       (pyStartswith l "https://www.anthropic.com/news/" = true ∨
        pyStartswith l "https://www.anthropic.com/research/" = true))) :=
  ⟨(C10_theorem w10doc).1, (C10_theorem w10doc).2 _ (by decide)⟩
